import Mathlib

/-!
Verification development for the `rest_orm` field-mapping engine
(`rest_orm/fields.py`, `rest_orm/models.py`).

The Python code is shallowly embedded: JSON-like documents become the
inductive type `Value`, every raise site of the source becomes a
constructor of `PyErr`, and each Python function/method is translated to
a Lean function of the same shape.  Python's in-place mutation on the
serialize path is modelled by store passing: a function that may mutate
an argument returns a pair of its Python return value and the post-call
value of that argument.
-/

namespace RestOrm

/-- A JSON-like document: `Map(string→Document) | List | Scalar | Null`.
Maps are association lists in insertion order, mirroring Python dicts
holding string keys (the only kind a parsed JSON document contains). -/
inductive Value where
  | null
  | bool (b : Bool)
  | int (n : Int)
  | str (s : String)
  | list (xs : List Value)
  | map (es : List (String × Value))

/-- One constructor per distinct raise site / exception kind reached by the
embedded code.
`keyError`/`indexError`/`typeError` are the built-in exceptions raised by
Python item access; `valueError` is the one raised by `int()` on a bad
literal.  The remaining constructors name the explicit `raise` statements of
`fields.py`: `missingField` is `KeyError('{} not found.')` in `deserialize`,
`cannotSerialize` is `ValueError('Value can not be serialized.')`,
`notListLike` is `ValueError('Object is not list-like.')`,
`invalidTarget` is `ValueError('Invalid serialization target.')`,
`positionOccupied` is `ValueError('Position occupied.')`,
`invalidPosition` is `ValueError('Invalid serialization position.')`,
`attributeError` is the `AttributeError` raised by `getattr` in
`AdaptedModel.dump`, and `validationError` stands for an error raised by a
user validator (`rest_orm.errors.AdapterError` in the tests). -/
inductive PyErr where
  | keyError
  | indexError
  | typeError
  | valueError
  | missingField (path : String)
  | cannotSerialize
  | notListLike
  | invalidTarget
  | positionOccupied
  | invalidPosition
  | attributeError
  | validationError
deriving DecidableEq

/-- Value of a nonempty list of decimal digits. -/
def digitsToNat (cs : List Char) : Nat :=
  cs.foldl (fun a c => a * 10 + (c.toNat - 48)) 0

/-- Python `int(s)` on a string: an optional single sign followed by one or
more decimal digits (Python's tolerance for surrounding whitespace and
underscore separators is not modelled; no path in the repository uses
either). `none` models the `ValueError` that `int()` raises otherwise. -/
def pyToInt (s : String) : Option Int :=
  match s.data with
  | [] => none
  | c :: cs =>
    if c = '-' then
      if cs ≠ [] ∧ cs.all (fun d => d.isDigit) then some (-(digitsToNat cs : Int))
      else none
    else if c = '+' then
      if cs ≠ [] ∧ cs.all (fun d => d.isDigit) then some ((digitsToNat cs : Int))
      else none
    else if (c :: cs).all (fun d => d.isDigit) then some ((digitsToNat (c :: cs) : Int))
    else none

/-- First binding of a key in a Python dict (keys are unique in any dict the
code builds, so first-match lookup is exact). -/
def dictGet : List (String × Value) → String → Option Value
  | [], _ => none
  | e :: es, k => if e.1 = k then some e.2 else dictGet es k

/-- Python `key in dict`. -/
def dictContains (es : List (String × Value)) (k : String) : Bool :=
  (dictGet es k).isSome

/-- Python `dict[k] = v`: replace the existing binding in place (keeping its
position) or append a new one. -/
def dictSet : List (String × Value) → String → Value → List (String × Value)
  | [], k, v => [(k, v)]
  | e :: es, k, v => if e.1 = k then (k, v) :: es else e :: dictSet es k v

/-- Python `dict.update(other)`: assign every binding of `other` in order. -/
def dictUpdate (old new : List (String × Value)) : List (String × Value) :=
  new.foldl (fun a e => dictSet a e.1 e.2) old

/-- Python `data[i]` for an integer `i`: sequences (lists and strings)
index with negative wrap-around and raise `IndexError` out of range; a dict
with string keys raises `KeyError` for any integer key; anything else is not
subscriptable (`TypeError`). -/
def pyIndex (data : Value) (i : Int) : Except PyErr Value :=
  match data with
  | .list xs =>
    let n : Int := xs.length
    if 0 ≤ i ∧ i < n then .ok (xs.getD i.toNat .null)
    else if -n ≤ i ∧ i < 0 then .ok (xs.getD (n + i).toNat .null)
    else .error .indexError
  | .str s =>
    let n : Int := s.data.length
    if 0 ≤ i ∧ i < n then .ok (.str (String.mk [s.data.getD i.toNat ' ']))
    else if -n ≤ i ∧ i < 0 then .ok (.str (String.mk [s.data.getD (n + i).toNat ' ']))
    else .error .indexError
  | .map _ => .error .keyError
  | _ => .error .typeError

/-- Python `data[k]` for a string `k`: dict lookup raising `KeyError` when
absent; lists and strings reject string subscripts with `TypeError`, as does
anything not subscriptable. -/
def pyGetKey (data : Value) (k : String) : Except PyErr Value :=
  match data with
  | .map es =>
    match dictGet es k with
    | some v => .ok v
    | none => .error .keyError
  | _ => .error .typeError

/-- The local `extract_by_type` of `AdaptedField._map_from_string`:
`try: return data[int(path)] except ValueError: return data[path]`. -/
def extractByType (seg : String) (data : Value) : Except PyErr Value :=
  match pyToInt seg with
  | some i => pyIndex data i
  | none => pyGetKey data seg

/-- Python `str.split('][')`: cut the character list at each (non-overlapping,
leftmost-first) occurrence of `][`.  `split` never returns an empty list:
splitting the empty string yields `[""]`. -/
def splitBrk : List Char → List Char → List (List Char)
  | acc, [] => [acc.reverse]
  | acc, ']' :: '[' :: rest => acc.reverse :: splitBrk [] rest
  | acc, c :: rest => splitBrk (c :: acc) rest

/-- `path[1:-1].split('][')`: strip the outer brackets (Python slicing is
total on short strings) and split on `][`. -/
def splitPath (p : String) : List String :=
  (splitBrk [] ((p.data.drop 1).dropLast)).map (fun cs => String.mk cs)

/-- The loop of `AdaptedField._map_from_string`: walk the parsed segments,
rebinding `data` to the extracted sub-value at each step. -/
def mapFromString : List String → Value → Except PyErr Value
  | [], data => .ok data
  | seg :: rest, data =>
    match extractByType seg data with
    | .ok sub => mapFromString rest sub
    | .error e => .error e

/-- Python `xs[i] = v` under the same index normalization as `pyIndex`
(out-of-range writes never occur on the paths that use this). -/
def pySetIdx (xs : List Value) (i : Int) (v : Value) : List Value :=
  let n : Int := xs.length
  if 0 ≤ i ∧ i < n then xs.set i.toNat v
  else if -n ≤ i ∧ i < 0 then xs.set (n + i).toNat v
  else xs

/-- Store semantics of reading along a path: the post-call value of the
document once the sub-object reached at the end of `segs` has post-call
value `newV`.  Lists and dicts hold their elements by reference, so a
mutated sub-object shows through; extracting from a string copies the
character, so the string is unchanged; a failed extraction touches
nothing. -/
def updatePath : List String → Value → Value → Value
  | [], _, newV => newV
  | seg :: rest, data, newV =>
    match extractByType seg data with
    | .error _ => data
    | .ok sub =>
      let sub2 := updatePath rest sub newV
      match pyToInt seg, data with
      | some i, .list xs => .list (pySetIdx xs i sub2)
      | none, .map es => .map (dictSet es seg sub2)
      | _, _ => data

/-- A deserialized value as stored on a loaded model: either a plain value,
a loaded nested-model instance (`AdaptedNested` over a single object), or a
list of loaded instances (`AdaptedNested` over a list). -/
inductive DVal where
  | plain (v : Value)
  | inst (attrs : List (String × DVal))
  | many (xs : List DVal)

/-- The keyword arguments of `AdaptedField.__init__`.  A validator is a
callable receiving the deserialized value and signalling failure by
raising; its model returns `Except PyErr Unit`. -/
structure FieldOpts where
  path : Option String
  missing : Value := .null
  nullable : Bool := true
  required : Bool := false
  validate : Option (DVal → Except PyErr Unit) := none

/-- The field descriptor classes of `fields.py`, one constructor per class
whose `_deserialize` the claims exercise: `pass` is the base
`AdaptedField`, then `AdaptedBoolean`, `AdaptedInteger`, `AdaptedString`,
`AdaptedList`, and `AdaptedNested` (whose model reference is resolved to
its schema; the registry lookup by name is peripheral).  `AdaptedDate`,
`AdaptedDecimal` and `AdaptedFunction` produce values (datetimes, decimals,
arbitrary objects) outside the document universe and are not needed by any
claim. -/
inductive AdaptedField where
  | pass (o : FieldOpts)
  | boolF (o : FieldOpts)
  | intF (o : FieldOpts)
  | strF (o : FieldOpts)
  | listF (o : FieldOpts)
  | nested (o : FieldOpts) (schema : List (String × AdaptedField))

/-- The constructor arguments shared by every field class. -/
def AdaptedField.opts : AdaptedField → FieldOpts
  | .pass o => o
  | .boolF o => o
  | .intF o => o
  | .strF o => o
  | .listF o => o
  | .nested o _ => o

/-- Python truthiness, as used by `AdaptedBoolean._deserialize`'s
`bool(value)`. -/
def pyTruthy : Value → Bool
  | .null => false
  | .bool b => b
  | .int n => n != 0
  | .str s => s != ""
  | .list xs => !xs.isEmpty
  | .map es => !es.isEmpty

/-- Python `int(value)`, as used by `AdaptedInteger._deserialize`: parse
strings (`ValueError` on a bad literal), cast booleans, pass integers
through, and raise `TypeError` on anything else. -/
def pyIntCoerce : Value → Except PyErr Value
  | .bool b => .ok (.int (if b then 1 else 0))
  | .int n => .ok (.int n)
  | .str s =>
    match pyToInt s with
    | some i => .ok (.int i)
    | none => .error .valueError
  | _ => .error .typeError

mutual
/-- Python `repr`, to the extent `str(value)` needs it for containers.  The
quoting of strings inside containers is not reproduced; no claim inspects
these strings. -/
def pyRepr : Value → String
  | .null => "None"
  | .bool b => if b then "True" else "False"
  | .int n => toString n
  | .str s => s
  | .list xs => "[" ++ pyReprL xs ++ "]"
  | .map es => "\x7b" ++ pyReprM es ++ "\x7d"

def pyReprL : List Value → String
  | [] => ""
  | [x] => pyRepr x
  | x :: xs => pyRepr x ++ ", " ++ pyReprL xs

def pyReprM : List (String × Value) → String
  | [] => ""
  | [e] => e.1 ++ ": " ++ pyRepr e.2
  | e :: es => e.1 ++ ": " ++ pyRepr e.2 ++ ", " ++ pyReprM es
end

/-- Python `str(value)`, as used by `AdaptedString._deserialize`: a string
casts to itself (so `True` stringifies to `"True"`). -/
def pyStr : Value → String
  | .str s => s
  | v => pyRepr v

/-- `AdaptedList._deserialize`: wrap anything that is not already a list. -/
def listWrap : Value → Value
  | .list xs => .list xs
  | v => .list [v]

/-- `AdaptedField._validate`: run the validator when present. -/
def runValidate (o : Option (DVal → Except PyErr Unit)) (v : DVal) :
    Except PyErr Unit :=
  match o with
  | none => .ok ()
  | some g => g v

/-- `AdaptedField.deserialize`, the contract shared by every field class,
with the subclass's `_deserialize` hook passed in as the virtual method
`coerce` (store-passing: `coerce` returns the coerced value and the
post-call value of the raw value it read).  With no path the whole
document is coerced.  Otherwise `_map_from_string` runs under
`except (KeyError, IndexError)`: on those two errors only, either raise
`KeyError('{} not found.')` (`required`) or fall back to `missing`; any
other exception (notably `TypeError`) propagates.  A raw `None` under
`nullable` skips coercion.  `_validate` runs on the final value in every
non-raising branch. -/
def deserializeWith (o : FieldOpts)
    (coerce : Value → Except PyErr (DVal × Value)) (data : Value) :
    Except PyErr (DVal × Value) :=
  match o.path with
  | none => coerce data
  | some p =>
    match mapFromString (splitPath p) data with
    | .error .keyError =>
      if o.required then .error (.missingField p)
      else
        match runValidate o.validate (.plain o.missing) with
        | .error e => .error e
        | .ok _ => .ok (.plain o.missing, data)
    | .error .indexError =>
      if o.required then .error (.missingField p)
      else
        match runValidate o.validate (.plain o.missing) with
        | .error e => .error e
        | .ok _ => .ok (.plain o.missing, data)
    | .error e => .error e
    | .ok .null =>
      if o.nullable then
        match runValidate o.validate (.plain .null) with
        | .error e => .error e
        | .ok _ => .ok (.plain .null, data)
      else
        match coerce .null with
        | .error e => .error e
        | .ok p2 =>
          match runValidate o.validate p2.1 with
          | .error e => .error e
          | .ok _ => .ok (p2.1, updatePath (splitPath p) data p2.2)
    | .ok raw =>
      match coerce raw with
      | .error e => .error e
      | .ok p2 =>
        match runValidate o.validate p2.1 with
        | .error e => .error e
        | .ok _ => .ok (p2.1, updatePath (splitPath p) data p2.2)

/-- The list comprehension of `AdaptedNested._deserialize`:
`[self.model().load(val) for val in value]`, with `load1` the load of one
nested instance; the pair threads the post-call values of the list's
elements. -/
def mapLoad
    (load1 : Value → Except PyErr (List (String × DVal) × Value)) :
    List Value → Except PyErr (List DVal × List Value)
  | [] => .ok ([], [])
  | v :: vs =>
    match load1 v with
    | .error e => .error e
    | .ok p =>
      match mapLoad load1 vs with
      | .error e => .error e
      | .ok q => .ok (.inst p.1 :: q.1, p.2 :: q.2)

mutual
/-- The `_deserialize` hook of each field class, under store passing: the
result is paired with the post-call value of `raw` (the coercions only
read their input; a nested load threads its sub-document through the
nested model). -/
def fieldDeserialize (f : AdaptedField) (raw : Value) :
    Except PyErr (DVal × Value) :=
  match f with
  | .pass _ => .ok (.plain raw, raw)
  | .boolF _ => .ok (.plain (.bool (pyTruthy raw)), raw)
  | .intF _ =>
    match pyIntCoerce raw with
    | .error e => .error e
    | .ok v => .ok (.plain v, raw)
  | .strF _ => .ok (.plain (.str (pyStr raw)), raw)
  | .listF _ => .ok (.plain (listWrap raw), raw)
  | .nested _ schema =>
    match raw with
    | .list xs =>
      match mapLoad (loadFields schema) xs with
      | .error e => .error e
      | .ok q => .ok (.many q.1, .list q.2)
    | v =>
      match loadFields schema v with
      | .error e => .error e
      | .ok p => .ok (.inst p.1, p.2)
termination_by structural f

/-- `AdaptedModel._do_load` as run on a fresh nested-model instance, whose
only field attributes are the schema's descriptors: deserialize every
field against the same (threaded) document. -/
def loadFields (schema : List (String × AdaptedField)) (data : Value) :
    Except PyErr (List (String × DVal) × Value) :=
  match schema with
  | [] => .ok ([], data)
  | (n, f) :: rest =>
    match deserializeWith f.opts (fieldDeserialize f) data with
    | .error e => .error e
    | .ok p =>
      match loadFields rest p.2 with
      | .error e => .error e
      | .ok q => .ok ((n, p.1) :: q.1, q.2)
termination_by structural schema
end

/-- `AdaptedField.deserialize`: the shared contract instantiated with the
field's own `_deserialize`. -/
def deserializeD (f : AdaptedField) (data : Value) :
    Except PyErr (DVal × Value) :=
  deserializeWith f.opts (fieldDeserialize f) data

/-- `AdaptedField._build_from_keys`: wrap the value from the innermost key
outward; an integer key pads a fresh list with `None` up to the key and
appends, a string key wraps in a single-entry dict.  A negative integer key
produces no padding, so the value lands at position 0. -/
def buildFromKeys (keys : List String) (value : Value) : Value :=
  keys.foldr
    (fun key acc =>
      match pyToInt key with
      | some i => .list (List.replicate i.toNat .null ++ [acc])
      | none => .map [(key, acc)])
    value

/-- `while len(array) < n: array.append(None)`. -/
def padTo (xs : List Value) (n : Nat) : List Value :=
  xs ++ List.replicate (n - xs.length) .null

/-- `AdaptedField._assign_to_position` under store passing.  `merge` is the
recursive `_assign_from_keys(value, keys, ·)` call made on a dict slot and
`built` is `_build_from_keys(keys, value)`; both capture the remaining keys
and the value.  Negative positions raise; the list is padded to the
position; a padded (`None`) slot is overwritten in place; a dict slot is
merged — note the source then returns `[<merge result>]`, a fresh
one-element list, while the original list object keeps its other slots;
any other occupied slot raises.  The returned pair is (Python return
value, post-call value of `array`). -/
def assignToPositionM (merge : Value → Except PyErr (Value × Value))
    (built : Value) (position : Int) (array : List Value) :
    Except PyErr (Value × Value) :=
  if position < 0 then .error .invalidPosition
  else
    let pos := position.toNat
    let arr := padTo array (pos + 1)
    match arr.getD pos .null with
    | .null =>
      let arr2 := arr.set pos built
      .ok (.list arr2, .list arr2)
    | .map es => do
      let p ← merge (.map es)
      .ok (.list [p.1], .list (arr.set pos p.2))
    | _ => .error .positionOccupied

/-- `AdaptedField._assign_from_keys` under store passing: the pair is
(Python return value, post-call value of `obj`).  On a dict: an integer
first key raises; an existing key with no keys left raises (no silent
overwrite); an existing key with keys left recurses into the sub-value and
returns a fresh dict holding only that key (the branch rebuilds
`obj = {key: ...}`), while the original dict keeps its other entries with
the sub-value mutated in place; an absent key merges
`_build_from_keys(keys, value)` via `dict.update` (the `typeError` arm is
Python's error on updating a dict from a non-mapping, unreachable here
because a non-integer first key always builds a dict).  On a list: an
integer key delegates to `_assign_to_position`, anything else raises.
`None` is replaced wholesale (the `None` object itself cannot be mutated);
any other occupied value raises.  Accessing `keys[0]` of an empty key list
is Python's `IndexError`. -/
def assignFromKeysM (value : Value) : List String → Value →
    Except PyErr (Value × Value)
  | [], _ => .error .indexError
  | key :: rest, obj =>
    match obj with
    | .map es =>
      if (pyToInt key).isSome then .error .notListLike
      else if dictContains es key then
        if rest = [] then .error .invalidTarget
        else do
          let p ← assignFromKeysM value rest ((dictGet es key).getD .null)
          .ok (.map [(key, p.1)], .map (dictSet es key p.2))
      else
        match buildFromKeys (key :: rest) value with
        | .map bs =>
          let es2 := dictUpdate es bs
          .ok (.map es2, .map es2)
        | _ => .error .typeError
    | .list xs =>
      match pyToInt key with
      | some i =>
        assignToPositionM (fun slot => assignFromKeysM value rest slot)
          (buildFromKeys rest value) i xs
      | none => .error .invalidTarget
    | .null =>
      .ok (buildFromKeys (key :: rest) value, .null)
    | _ => .error .invalidTarget

/-- `AdaptedField.serialize` with the target document passed explicitly. -/
def serialize (f : AdaptedField) (value : Value) (obj : Value) :
    Except PyErr Value :=
  match f.opts.path with
  | none => .error .cannotSerialize
  | some p => (assignFromKeysM value (splitPath p) obj).map (fun q => q.1)

/-- `AdaptedField.serialize` with the target document omitted.  The Python
signature is `serialize(self, value, obj={})`: the default dict is created
once and shared by every call that omits `obj`, so its current value
`dflt` is the extra state threaded here, updated to the post-call value of
`obj` on success.  (Mutations made before an exception are not tracked; no
modelled scenario continues past one.) -/
def serializeDefault (f : AdaptedField) (value : Value) (dflt : Value) :
    Except PyErr Value × Value :=
  match f.opts.path with
  | none => (.error .cannotSerialize, dflt)
  | some p =>
    match assignFromKeysM value (splitPath p) dflt with
    | .ok q => (.ok q.1, q.2)
    | .error e => (.error e, dflt)

/-- An attribute of a model instance as seen by `dir`/`getattr`: a field
descriptor, a value a previous load left behind, or any other attribute
(methods, class helpers). -/
inductive Attr where
  | fld (f : AdaptedField)
  | dv (v : DVal)
  | other

/-- First binding of an attribute name (`getattr`). -/
def attrGet : List (String × Attr) → String → Option Attr
  | [], _ => none
  | e :: es, k => if e.1 = k then some e.2 else attrGet es k

/-- `AdaptedModel._do_load`: every attribute that is an `AdaptedField` is
replaced by its deserialized value; everything else is untouched.  The
document is threaded through each field's (read-only) deserialization. -/
def doLoadS : List (String × Attr) → Value →
    Except PyErr (List (String × Attr) × Value)
  | [], d => .ok ([], d)
  | (n, .fld f) :: rest, d =>
    match deserializeD f d with
    | .error e => .error e
    | .ok p =>
      match doLoadS rest p.2 with
      | .error e => .error e
      | .ok q => .ok ((n, .dv p.1) :: q.1, q.2)
  | (n, a) :: rest, d =>
    match doLoadS rest d with
    | .error e => .error e
    | .ok q => .ok ((n, a) :: q.1, q.2)

/-- `AdaptedModel.load`: `_do_load`, then the user-overridable `post_load`
hook (which receives only the instance, never the document), returning the
instance.  The pair is (instance after load, document after load). -/
def loadModel (m : List (String × Attr))
    (post : List (String × Attr) → List (String × Attr)) (d : Value) :
    Except PyErr (List (String × Attr) × Value) :=
  match doLoadS m d with
  | .error e => .error e
  | .ok q => .ok (post q.1, q.2)

/-- `AdaptedModel.dump`: fold over the record's entries (the iteration
order of `data.iteritems()` is the order of the list given here), looking
each name up with `getattr` (raising `AttributeError` when the instance
has no such attribute), skipping attributes that are not `AdaptedField`s,
and rebinding the accumulated response to each field's `serialize`
result. -/
def dump (m : List (String × Attr)) (data : List (String × Value)) :
    Except PyErr Value :=
  data.foldlM
    (fun response entry =>
      match attrGet m entry.1 with
      | none => .error .attributeError
      | some (.fld f) => serialize f entry.2 response
      | some _ => .ok response)
    (Value.map [])

/-- `isinstance(-, AdaptedField)`. -/
def Attr.isFld : Attr → Bool
  | .fld _ => true
  | _ => false

/-- No attribute of the instance is a field descriptor (the state of any
instance after `_do_load` has run). -/
def noFld (m : List (String × Attr)) : Bool :=
  m.all (fun e => !(Attr.isFld e.2))

/-- A scalar in the spec's sense: a leaf value that is neither `Null` nor a
container. -/
def isScalar : Value → Bool
  | .bool _ => true
  | .int _ => true
  | .str _ => true
  | _ => false

/-- `AdaptedString(path)` with default options, as in the test model. -/
def strField (p : String) : AdaptedField :=
  .strF { path := some p }

/-- The `TestModel` of `tests/test_models.py`: four string fields plus the
non-field attributes every model carries. -/
def testModel : List (String × Attr) :=
  [("first", .fld (strField "[first]")),
   ("address1", .fld (strField "[address][address][0]")),
   ("address2", .fld (strField "[address][address][1]")),
   ("city", .fld (strField "[address][city]")),
   ("make_request", .other),
   ("post_load", .other)]

/-- The record dumped by `test_model_dump`, in schema declaration order. -/
def testRecordSchemaOrder : List (String × Value) :=
  [("first", .str "Test"),
   ("address1", .str "100 Harvard Street"),
   ("address2", .str "#801B"),
   ("city", .str "Arden")]

/-- The same record with `first` applied last. -/
def testRecordFirstLast : List (String × Value) :=
  [("address1", .str "100 Harvard Street"),
   ("address2", .str "#801B"),
   ("city", .str "Arden"),
   ("first", .str "Test")]

/-- A nonempty all-digit segment parses as a (non-negative) integer under
Python's `int()`. -/
theorem pyToInt_digits (s : String) (h1 : s.data ≠ [])
    (h2 : s.data.all (fun c => c.isDigit)) :
    pyToInt s = some ((digitsToNat s.data : Nat) : Int) := by
  unfold pyToInt
  cases hd : s.data with
  | nil => exact absurd hd h1
  | cons c cs =>
    rw [hd] at h2
    have hc : c.isDigit = true := by
      have := List.all_eq_true.mp h2 c (by simp)
      simpa using this
    have h3 : ¬(c = '-') := by
      intro h
      rw [h] at hc
      exact absurd hc (by decide)
    have h4 : ¬(c = '+') := by
      intro h
      rw [h] at hc
      exact absurd hc (by decide)
    simp [h3, h4, h2]

/-- C1.  `AdaptedModel.dump` of the documented record, applying fields in
schema order: the output is only `{'address': {'address': [...], 'city':
'Arden'}}` — the `first` entry written by the first field is dropped when
`address2`'s merge rebuilds the top-level dict as `{'address': ...}`.
Applying `first` last instead yields the full documented output, which is
what the repository's own `test_model_dump` asserts. -/
theorem c1_dump_drops_first :
    dump testModel testRecordSchemaOrder
      = .ok (.map [("address",
          .map [("address", .list [.str "100 Harvard Street", .str "#801B"]),
                ("city", .str "Arden")])]) ∧
    dump testModel testRecordFirstLast
      = .ok (.map [("address",
          .map [("address", .list [.str "100 Harvard Street", .str "#801B"]),
                ("city", .str "Arden")]),
          ("first", .str "Test")]) :=
  ⟨rfl, rfl⟩

/-- C2, counterexample.  A required field whose path runs through a
non-subscriptable intermediate value: `_map_from_string` raises
`TypeError`, which the `except (KeyError, IndexError)` clause does not
catch, so `deserialize` fails with `TypeError` rather than the
`MissingField` error the claim promises. -/
theorem c2_counterexample :
    deserializeD (.pass { path := some "[x][y]", required := true })
      (.map [("x", .int 5)]) = .error .typeError :=
  rfl

/-- C2, amended.  For every descriptor with `required = true` and a path,
and every document in which resolution fails with `KeyError` or
`IndexError` (absent map key, integer key against a map, out-of-range
index), `deserialize` fails with the `MissingField` error carrying the
path; the `missing` default is never used. -/
theorem c2_required_missing_amended (f : AdaptedField) (p : String)
    (d : Value) (hp : f.opts.path = some p)
    (hreq : f.opts.required = true)
    (he : mapFromString (splitPath p) d = .error .keyError ∨
          mapFromString (splitPath p) d = .error .indexError) :
    deserializeD f d = .error (.missingField p) := by
  rcases he with he | he <;> simp [deserializeD, deserializeWith, hp, he, hreq]

/-- C2, witness: a required field over an empty document. -/
theorem c2_witness :
    deserializeD (.pass { path := some "[x]", required := true })
      (.map []) = .error (.missingField "[x]") :=
  c2_required_missing_amended _ "[x]" _ rfl rfl (Or.inl rfl)

/-- C3, counterexample.  A non-required descriptor whose path hits a
non-subscriptable intermediate value: the `TypeError` is not caught, so
`deserialize` throws instead of returning the configured `missing`
value. -/
theorem c3_counterexample :
    deserializeD (.pass { path := some "[x][0]", missing := .str "m" })
      (.map [("x", .int 5)]) = .error .typeError :=
  rfl

/-- C3, amended.  For every descriptor with `required = false`, no
validator, and a path, and every document in which resolution fails with
`KeyError` or `IndexError` (absent map key, integer key against a map,
out-of-range index — but not a `TypeError` from a non-subscriptable
intermediate, which propagates), `deserialize` returns the configured
`missing` value without throwing. -/
theorem c3_missing_default_amended (f : AdaptedField) (p : String)
    (d : Value) (hp : f.opts.path = some p)
    (hreq : f.opts.required = false)
    (hval : f.opts.validate = none)
    (he : mapFromString (splitPath p) d = .error .keyError ∨
          mapFromString (splitPath p) d = .error .indexError) :
    deserializeD f d = .ok (.plain f.opts.missing, d) := by
  rcases he with he | he <;>
    simp [deserializeD, deserializeWith, hp, he, hreq, hval, runValidate]

/-- C3, witness: a defaulted field over a document missing its key. -/
theorem c3_witness :
    deserializeD (.pass { path := some "[key]", missing := .str "value" })
      (.map [("x", .int 1)])
      = .ok (.plain (.str "value"), .map [("x", .int 1)]) :=
  c3_missing_default_amended _ "[key]" _ rfl rfl rfl (Or.inl rfl)

/-- C4, counterexample.  A serialize call whose path contains a negative
integer segment, with the structure freshly built: `_build_from_keys` pads
nothing for a negative key and appends the value, so serialization
succeeds with the value at position 0 — no `InvalidPosition` error. -/
theorem c4_counterexample :
    serialize (strField "[a][-1]") (.str "v") (.map [])
      = .ok (.map [("a", .list [.str "v"])]) :=
  rfl

/-- C4, amended.  A negative integer segment fails with `InvalidPosition`
exactly when it is dispatched against an existing list
(`_assign_to_position`); for every field whose first path segment parses
negative, serializing any value into any list target fails with
`InvalidPosition`.  When the structure for the segment is freshly built
instead, `_build_from_keys` silently places the value at position 0. -/
theorem c4_negative_position_amended (f : AdaptedField) (p : String)
    (v : Value) (xs : List Value) (s : String) (rest : List String)
    (n : Int) (hp : f.opts.path = some p)
    (hsplit : splitPath p = s :: rest)
    (hn : pyToInt s = some n) (hneg : n < 0) :
    serialize f v (.list xs) = .error .invalidPosition := by
  simp [serialize, hp, hsplit, assignFromKeysM, hn, assignToPositionM, hneg]
  rfl

/-- C4, witness: path `[-1]` against an existing empty list. -/
theorem c4_witness :
    serialize (strField "[-1]") (.str "v") (.list [])
      = .error .invalidPosition :=
  c4_negative_position_amended _ "[-1]" _ _ "-1" [] (-1) rfl rfl rfl
    (by decide)

/-- C5, counterexample.  A record entry naming a pathless field descriptor:
`dump` does not skip it (it only skips non-`AdaptedField` attributes), and
`serialize` raises `ValueError('Value can not be serialized.')`. -/
theorem c5_counterexample :
    dump [("x", .fld (.pass { path := none }))] [("x", .int 1)]
      = .error .cannotSerialize :=
  rfl

/-- C5, amended.  `dump` skips record entries naming attributes that are
not field descriptors; but a record entry naming a pathless field
descriptor is not skipped — it always fails the whole dump with
`ValueError('Value can not be serialized.')`. -/
theorem c5_pathless_dump_amended (f : AdaptedField) (v : Value)
    (hf : f.opts.path = none) :
    dump [("x", Attr.fld f)] [("x", v)] = .error .cannotSerialize ∧
    dump [("x", Attr.other)] [("x", v)] = .ok (.map []) := by
  constructor
  · simp [dump, attrGet, serialize, hf]
  · simp [dump, attrGet]

/-- C5, witness: a pathless base field and an arbitrary record value. -/
theorem c5_witness :
    dump [("x", Attr.fld (.pass { path := none }))] [("x", .str "v")]
      = .error .cannotSerialize ∧
    dump [("x", Attr.other)] [("x", .str "v")] = .ok (.map []) :=
  c5_pathless_dump_amended (.pass { path := none }) (.str "v") rfl

/-- C6.  Descriptors are not stateless: `serialize(self, value, obj={})`
shares one default dict across all calls that omit the target.  The first
call `serialize('Test')` on a field with path `[first]` returns
`{'first': 'Test'}` and leaves the default dict mutated to that value; the
second call with the very same arguments then raises
`ValueError('Invalid serialization target.')` instead of returning the
same result. -/
theorem c6_mutable_default_state :
    serializeDefault (strField "[first]") (.str "Test") (.map [])
      = (.ok (.map [("first", .str "Test")]),
         .map [("first", .str "Test")]) ∧
    (serializeDefault (strField "[first]") (.str "Test")
        (.map [("first", .str "Test")])).1
      = .error .invalidTarget :=
  ⟨rfl, rfl⟩

/-- C10.  A path segment consisting only of decimal digits is looked up as
an integer index even when the current value is a map, and a string-keyed
map never has an integer key: resolution fails with `KeyError`
(`NotFound`), for every map — including one whose keys contain that very
digit string. -/
theorem c10_digit_segment_unreachable (es : List (String × Value))
    (seg : String) (h1 : seg.data ≠ [])
    (h2 : seg.data.all (fun c => c.isDigit)) :
    mapFromString [seg] (.map es) = .error .keyError := by
  simp [mapFromString, extractByType, pyToInt_digits seg h1 h2, pyIndex]

/-- C10, witness: the document `{'1': 7}` with path segment `1`. -/
theorem c10_witness :
    mapFromString ["1"] (.map [("1", .int 7)]) = .error .keyError :=
  c10_digit_segment_unreachable [("1", .int 7)] "1" (by decide) (by decide)

/-- `_build_from_keys` of a scalar never yields `None`: with no keys it is
the scalar itself, otherwise a list or a dict. -/
theorem buildFromKeys_ne_null (keys : List String) (v : Value)
    (hs : isScalar v = true) : buildFromKeys keys v ≠ .null := by
  cases keys with
  | nil => cases v <;> simp [buildFromKeys, isScalar] at hs ⊢
  | cons k rest =>
    simp only [buildFromKeys, List.foldr_cons]
    cases pyToInt k <;> simp

/-- Padding a list at most to its own length changes nothing. -/
theorem padTo_of_length_le (xs : List Value) (n : Nat)
    (h : n ≤ xs.length) : padTo xs n = xs := by
  simp [padTo, Nat.sub_eq_zero_of_le h]

/-- The element a padded build places at position `n` is read back at
position `n`. -/
theorem getD_replicate_append (n : Nat) (a b d : Value) :
    (List.replicate n a ++ [b]).getD n d = b := by
  induction n with
  | zero => simp
  | succ m ih => simp [List.replicate_succ, ih]

/-- One-step reduction of `_assign_from_keys` on a single-entry dict whose
key matches, with keys left over: recurse into the entry. -/
theorem assignFromKeys_descend (v2 : Value) (k : String)
    (rest : List String) (inner : Value)
    (hki : (pyToInt k).isSome = false) (hne : rest ≠ []) :
    assignFromKeysM v2 (k :: rest) (.map [(k, inner)])
      = (assignFromKeysM v2 rest inner).bind
          (fun p => .ok (.map [(k, p.1)],
            .map (dictSet [(k, inner)] k p.2))) := by
  simp [assignFromKeysM, hki, dictContains, dictGet, hne]
  rfl

/-- One-step reduction of `_assign_from_keys` on a list with an integer
key: delegate to `_assign_to_position`. -/
theorem assignFromKeys_position (v2 : Value) (k : String)
    (rest : List String) (i : Int) (xs : List Value)
    (hki : pyToInt k = some i) :
    assignFromKeysM v2 (k :: rest) (.list xs)
      = assignToPositionM (fun slot => assignFromKeysM v2 rest slot)
          (buildFromKeys rest v2) i xs := by
  simp [assignFromKeysM, hki]

/-- One-step reduction of `_assign_to_position` when the (already long
enough) list holds a dict at the position: merge into it. -/
theorem assignToPosition_map_slot
    (merge : Value → Except PyErr (Value × Value)) (built : Value)
    (i : Int) (xs : List Value) (es : List (String × Value))
    (hneg : ¬i < 0) (harr : padTo xs (i.toNat + 1) = xs)
    (hslot : xs.getD i.toNat .null = .map es) :
    assignToPositionM merge built i xs
      = (merge (.map es)).bind
          (fun p => .ok (.list [p.1], .list (xs.set i.toNat p.2))) := by
  simp only [assignToPositionM, if_neg hneg, harr, hslot]
  rfl

/-- One-step reduction of `_assign_to_position` when the slot holds
anything that is neither `None` nor a dict: `Position occupied.`. -/
theorem assignToPosition_occupied
    (merge : Value → Except PyErr (Value × Value)) (built : Value)
    (i : Int) (xs : List Value) (v : Value)
    (hneg : ¬i < 0) (harr : padTo xs (i.toNat + 1) = xs)
    (hslot : xs.getD i.toNat .null = v) (hnn : v ≠ .null)
    (hnm : ∀ es, v ≠ .map es) :
    assignToPositionM merge built i xs = .error .positionOccupied := by
  cases v with
  | null => exact absurd rfl hnn
  | map es => exact absurd rfl (hnm es)
  | bool b => simp only [assignToPositionM, if_neg hneg, harr, hslot]
  | int n => simp only [assignToPositionM, if_neg hneg, harr, hslot]
  | str s => simp only [assignToPositionM, if_neg hneg, harr, hslot]
  | list ys => simp only [assignToPositionM, if_neg hneg, harr, hslot]

/-- Walking `_assign_from_keys` a second time over the very structure
`_build_from_keys` made for a scalar always raises: the leaf is either an
occupied dict key (`Invalid serialization target.`), an occupied list slot
(`Position occupied.`), a list met again through a negative segment
(`Invalid serialization position.`), or — before the leaf — a list slot
whose sibling structure is a list (`Position occupied.`). -/
theorem secondAssignErrors (keys : List String) (v1 v2 : Value)
    (hk : keys ≠ []) (hs : isScalar v1 = true) :
    assignFromKeysM v2 keys (buildFromKeys keys v1)
        = .error .invalidTarget ∨
    assignFromKeysM v2 keys (buildFromKeys keys v1)
        = .error .positionOccupied ∨
    assignFromKeysM v2 keys (buildFromKeys keys v1)
        = .error .invalidPosition := by
  induction keys with
  | nil => exact absurd rfl hk
  | cons k rest ih =>
    cases hki : pyToInt k with
    | none =>
      have hki2 : (pyToInt k).isSome = false := by simp [hki]
      have hb : buildFromKeys (k :: rest) v1
          = .map [(k, buildFromKeys rest v1)] := by
        simp only [buildFromKeys, List.foldr_cons, hki]
      rw [hb]
      cases rest with
      | nil =>
        left
        simp [assignFromKeysM, hki2, dictContains, dictGet]
      | cons r rest2 =>
        have hne : r :: rest2 ≠ [] := by simp
        rw [assignFromKeys_descend v2 k (r :: rest2) _ hki2 hne]
        rcases ih hne with h | h | h
        · left; rw [h]; rfl
        · right; left; rw [h]; rfl
        · right; right; rw [h]; rfl
    | some i =>
      have hb : buildFromKeys (k :: rest) v1
          = .list (List.replicate i.toNat .null ++ [buildFromKeys rest v1]) := by
        simp only [buildFromKeys, List.foldr_cons, hki]
      rw [hb, assignFromKeys_position v2 k rest i _ hki]
      by_cases hneg : i < 0
      · right; right
        simp [assignToPositionM, hneg]
      · have harr : padTo (List.replicate i.toNat Value.null
              ++ [buildFromKeys rest v1]) (i.toNat + 1)
            = List.replicate i.toNat Value.null ++ [buildFromKeys rest v1] :=
          padTo_of_length_le _ _ (by simp)
        have hslot : (List.replicate i.toNat Value.null
              ++ [buildFromKeys rest v1]).getD i.toNat .null
            = buildFromKeys rest v1 := getD_replicate_append _ _ _ _
        cases rest with
        | nil =>
          right; left
          exact assignToPosition_occupied _ _ _ _ (buildFromKeys [] v1)
            hneg harr hslot (buildFromKeys_ne_null [] v1 hs)
            (by intro es; cases v1 <;> simp [isScalar] at hs <;>
              simp [buildFromKeys])
        | cons r rest2 =>
          cases hri : pyToInt r with
          | none =>
            have hb2 : buildFromKeys (r :: rest2) v1
                = .map [(r, buildFromKeys rest2 v1)] := by
              simp only [buildFromKeys, List.foldr_cons, hri]
            have hne : r :: rest2 ≠ [] := by simp
            have hred := assignToPosition_map_slot
              (fun slot => assignFromKeysM v2 (r :: rest2) slot)
              (buildFromKeys (r :: rest2) v2) i
              (List.replicate i.toNat Value.null
                ++ [buildFromKeys (r :: rest2) v1])
              [(r, buildFromKeys rest2 v1)] hneg harr (hb2 ▸ hslot)
            rcases ih hne with h | h | h
            · left
              simp only [hred, ← hb2, h]
              rfl
            · right; left
              simp only [hred, ← hb2, h]
              rfl
            · right; right
              simp only [hred, ← hb2, h]
              rfl
          | some j =>
            right; left
            have hb2 : buildFromKeys (r :: rest2) v1
                = .list (List.replicate j.toNat .null
                    ++ [buildFromKeys rest2 v1]) := by
              simp only [buildFromKeys, List.foldr_cons, hri]
            exact assignToPosition_occupied _ _ _ _
              (buildFromKeys (r :: rest2) v1) hneg harr hslot
              (buildFromKeys_ne_null _ _ hs) (by simp [hb2])

/-- C7, counterexample.  Two serialize calls writing scalars to the same
leaf path `[a][-1]`: the first succeeds (the negative segment builds a
fresh one-element list), and the second fails — but with
`InvalidPosition`, not the claimed `InvalidTarget`/`PositionOccupied`. -/
theorem c7_counterexample :
    serialize (strField "[a][-1]") (.str "x") (.map [])
      = .ok (.map [("a", .list [.str "x"])]) ∧
    serialize (strField "[a][-1]") (.str "y")
        (.map [("a", .list [.str "x"])])
      = .error .invalidPosition ∧
    (PyErr.invalidPosition ≠ PyErr.invalidTarget ∧
     PyErr.invalidPosition ≠ PyErr.positionOccupied) :=
  ⟨rfl, rfl, by decide, by decide⟩

/-- C7, amended.  For every two serialize calls through the same field
writing scalar values to the same leaf path, if the first call into an
empty document succeeds then the second call on its output fails — with
`InvalidTarget`, `PositionOccupied`, or (when the path contains a negative
integer segment) `InvalidPosition`; the first value is never silently
overwritten. -/
theorem c7_no_silent_overwrite_amended (f : AdaptedField) (v1 v2 : Value)
    (d1 : Value) (hs : isScalar v1 = true)
    (h1 : serialize f v1 (.map []) = .ok d1) :
    serialize f v2 d1 = .error .invalidTarget ∨
    serialize f v2 d1 = .error .positionOccupied ∨
    serialize f v2 d1 = .error .invalidPosition := by
  cases hp : f.opts.path with
  | none => simp [serialize, hp] at h1
  | some p =>
    simp only [serialize, hp] at h1
    cases hkeys : splitPath p with
    | nil =>
      rw [hkeys] at h1
      simp [assignFromKeysM, Except.map] at h1
    | cons k rest =>
      rw [hkeys] at h1
      cases hki : pyToInt k with
      | some i =>
        exfalso
        have hki2 : (pyToInt k).isSome = true := by simp [hki]
        simp [assignFromKeysM, hki2, Except.map] at h1
      | none =>
        have hki2 : (pyToInt k).isSome = false := by simp [hki]
        have hb : buildFromKeys (k :: rest) v1
            = .map [(k, buildFromKeys rest v1)] := by
          simp only [buildFromKeys, List.foldr_cons, hki]
        have hd1 : d1 = buildFromKeys (k :: rest) v1 := by
          simp [assignFromKeysM, hki2, dictContains, dictGet, dictUpdate,
            dictSet, hb, Except.map] at h1
          rw [hb]
          exact h1.symm
        simp only [serialize, hp, hkeys, hd1]
        have hne : k :: rest ≠ [] := by simp
        rcases secondAssignErrors (k :: rest) v1 v2 hne hs with h | h | h
        · left; simp [h, Except.map]
        · right; left; simp [h, Except.map]
        · right; right; simp [h, Except.map]

/-- Writing back the element just read leaves a list unchanged. -/
theorem set_getD_self (l : List Value) (n : Nat) (d : Value)
    (h : n < l.length) : l.set n (l.getD n d) = l := by
  induction l generalizing n with
  | nil => simp at h
  | cons x xs ih =>
    cases n with
    | zero => simp [List.getD]
    | succ m =>
      simp only [List.getD_cons_succ, List.set_cons_succ]
      rw [ih m (by simpa using h)]

/-- Writing back the binding just read leaves a dict unchanged. -/
theorem dictSet_get_self (es : List (String × Value)) (k : String)
    (v : Value) (h : dictGet es k = some v) : dictSet es k v = es := by
  induction es with
  | nil => simp [dictGet] at h
  | cons e es ih =>
    obtain ⟨k0, v0⟩ := e
    by_cases hk : k0 = k
    · subst hk
      simp [dictGet] at h
      simp [dictSet, h]
    · simp [dictGet, hk] at h
      simp [dictSet, hk, ih h]

/-- Writing back, along a fully resolving path, the very value the path
reaches leaves the document unchanged. -/
theorem updatePath_get (segs : List String) (d raw : Value)
    (h : mapFromString segs d = .ok raw) : updatePath segs d raw = d := by
  induction segs generalizing d with
  | nil =>
    simp [mapFromString] at h
    simp [updatePath, h]
  | cons seg rest ih =>
    cases hex : extractByType seg d with
    | error e => simp [mapFromString, hex] at h
    | ok sub =>
      simp only [mapFromString, hex] at h
      simp only [updatePath, hex, ih sub h]
      cases hpi : pyToInt seg with
      | some i =>
        cases d with
        | list xs =>
          simp only [extractByType, hpi, pyIndex] at hex
          by_cases h1 : 0 ≤ i ∧ i < (xs.length : Int)
          · rw [if_pos h1] at hex
            have hsub2 : xs.getD i.toNat .null = sub := by
              simpa using hex
            have hlt : i.toNat < xs.length := by omega
            simp only [pySetIdx, if_pos h1, ← hsub2,
              set_getD_self xs i.toNat .null hlt]
          · by_cases h2 : -(xs.length : Int) ≤ i ∧ i < 0
            · rw [if_neg h1, if_pos h2] at hex
              have hsub2 : xs.getD ((xs.length : Int) + i).toNat .null = sub := by
                simpa using hex
              have hlt : ((xs.length : Int) + i).toNat < xs.length := by omega
              simp only [pySetIdx, if_neg h1, if_pos h2, ← hsub2,
                set_getD_self xs _ .null hlt]
            · rw [if_neg h1, if_neg h2] at hex
              cases hex
        | str s => rfl
        | null => simp [extractByType, hpi, pyIndex] at hex
        | bool b => simp [extractByType, hpi, pyIndex] at hex
        | int n => simp [extractByType, hpi, pyIndex] at hex
        | map es => simp [extractByType, hpi, pyIndex] at hex
      | none =>
        cases d with
        | map es =>
          simp only [extractByType, hpi, pyGetKey] at hex
          cases hg : dictGet es seg with
          | none => rw [hg] at hex; cases hex
          | some w =>
            rw [hg] at hex
            have hw : w = sub := by simpa using hex
            subst hw
            simp only [dictSet_get_self es seg w hg]
        | list xs => simp [extractByType, hpi, pyGetKey] at hex
        | str s => simp [extractByType, hpi, pyGetKey] at hex
        | null => simp [extractByType, hpi, pyGetKey] at hex
        | bool b => simp [extractByType, hpi, pyGetKey] at hex
        | int n => simp [extractByType, hpi, pyGetKey] at hex

/-- The shared `deserialize` shell leaves the document it reads unchanged
whenever the coercion hook it is given does: the only write-back is the
re-installation, along the freshly resolved path, of the coercion's
post-call value of the raw value. -/
theorem deserializeWith_preserve (o : FieldOpts)
    (coerce : Value → Except PyErr (DVal × Value)) (data : Value)
    (w : DVal) (d2 : Value)
    (hco : ∀ raw w2 raw2, coerce raw = .ok (w2, raw2) → raw2 = raw)
    (h : deserializeWith o coerce data = .ok (w, d2)) : d2 = data := by
  rw [deserializeWith.eq_def] at h
  split at h
  · exact hco data w d2 h
  · rename_i p hp
    split at h
    · split at h
      · cases h
      · split at h
        · cases h
        · simp at h; exact h.2.symm
    · split at h
      · cases h
      · split at h
        · cases h
        · simp at h; exact h.2.symm
    · cases h
    · rename_i hmfs
      split at h
      · split at h
        · cases h
        · simp at h; exact h.2.symm
      · split at h
        · cases h
        · rename_i p2 hp2
          split at h
          · cases h
          · simp at h
            rw [← h.2, hco .null p2.1 p2.2 hp2]
            exact updatePath_get (splitPath p) data .null hmfs
    · rename_i raw hraw hmfs
      split at h
      · cases h
      · rename_i p2 hp2
        split at h
        · cases h
        · simp at h
          rw [← h.2, hco raw p2.1 p2.2 hp2]
          exact updatePath_get (splitPath p) data raw hmfs

/-- `mapLoad` leaves the element list unchanged whenever its one-element
load does. -/
theorem mapLoad_preserve
    (load1 : Value → Except PyErr (List (String × DVal) × Value))
    (hl : ∀ v w d2, load1 v = .ok (w, d2) → d2 = v) :
    ∀ xs w xs2, mapLoad load1 xs = .ok (w, xs2) → xs2 = xs := by
  intro xs
  induction xs with
  | nil => intro w xs2 h; simp [mapLoad] at h; exact h.2
  | cons v vs ihx =>
    intro w xs2 h
    simp only [mapLoad] at h
    split at h
    · cases h
    · rename_i p hp
      split at h
      · cases h
      · rename_i q hq
        simp at h
        rw [← h.2, hl v p.1 p.2 hp, ihx q.1 q.2 hq]

/-- Joint store preservation for the mutual coercion/nested-load pair, by
strong induction on the size of the field/schema: `_deserialize` hooks and
nested-model loading leave the (threaded) document they read unchanged. -/
theorem loadPreserveAux : ∀ n : Nat,
    (∀ f : AdaptedField, sizeOf f ≤ n →
      ∀ raw w raw2, fieldDeserialize f raw = .ok (w, raw2) → raw2 = raw) ∧
    (∀ s : List (String × AdaptedField), sizeOf s ≤ n →
      ∀ d w d2, loadFields s d = .ok (w, d2) → d2 = d) := by
  intro n
  induction n using Nat.strong_induction_on with
  | _ n IH =>
    constructor
    · intro f hf raw w raw2 h
      cases f with
      | pass o => simp [fieldDeserialize] at h; exact h.2.symm
      | boolF o => simp [fieldDeserialize] at h; exact h.2.symm
      | intF o =>
        simp only [fieldDeserialize] at h
        split at h
        · cases h
        · simp at h; exact h.2.symm
      | strF o => simp [fieldDeserialize] at h; exact h.2.symm
      | listF o => simp [fieldDeserialize] at h; exact h.2.symm
      | nested o schema =>
        have hlt : sizeOf schema < n := by
          simp [AdaptedField.nested.sizeOf_spec] at hf
          omega
        have hs := (IH (sizeOf schema) hlt).2 schema (le_refl _)
        rw [fieldDeserialize.eq_def] at h
        simp only [] at h
        split at h
        · rename_i xs
          split at h
          · cases h
          · rename_i p hp
            simp at h
            rw [← h.2,
              mapLoad_preserve (loadFields schema) hs xs p.1 p.2 hp]
        · split at h
          · cases h
          · rename_i p hp
            simp at h
            rw [← h.2, hs raw p.1 p.2 hp]
    · intro s hsz d w d2 h
      cases s with
      | nil => simp [loadFields] at h; exact h.2.symm
      | cons e rest =>
        obtain ⟨n0, f⟩ := e
        have hf : sizeOf f < n := by
          simp at hsz
          omega
        have hrest : sizeOf rest < n := by
          simp at hsz
          omega
        simp only [loadFields] at h
        split at h
        · cases h
        · rename_i p hpd
          split at h
          · cases h
          · rename_i q hq
            simp at h
            rw [← h.2]
            rw [(IH (sizeOf rest) hrest).2 rest (le_refl _) p.2 q.1 q.2 hq]
            exact deserializeWith_preserve f.opts (fieldDeserialize f) d
              p.1 p.2 ((IH (sizeOf f) hf).1 f (le_refl _)) hpd

/-- `AdaptedField.deserialize` leaves the document unchanged. -/
theorem deserializePreserve (f : AdaptedField) (d : Value) (w : DVal)
    (d2 : Value) (h : deserializeD f d = .ok (w, d2)) : d2 = d := by
  unfold deserializeD at h
  exact deserializeWith_preserve f.opts (fieldDeserialize f) d w d2
    ((loadPreserveAux (sizeOf f)).1 f (le_refl _)) h

/-- `AdaptedModel._do_load` leaves the document unchanged. -/
theorem doLoadSPreserve : ∀ (m : List (String × Attr)) (d : Value)
    (q : List (String × Attr) × Value), doLoadS m d = .ok q → q.2 = d := by
  intro m
  induction m with
  | nil => intro d q h; obtain ⟨q1, qd⟩ := q; simp [doLoadS] at h; exact h.2.symm
  | cons e rest ih =>
    intro d q h
    obtain ⟨q1, qd⟩ := q
    obtain ⟨n0, a⟩ := e
    cases a with
    | fld f =>
      simp only [doLoadS] at h
      split at h
      · cases h
      · rename_i p hp
        split at h
        · cases h
        · rename_i q2 hq
          simp at h
          rw [← h.2, ih p.2 q2 hq]
          exact deserializePreserve f d p.1 p.2 hp
    | dv v =>
      simp only [doLoadS] at h
      split at h
      · cases h
      · rename_i q2 hq
        simp at h
        rw [← h.2]
        exact ih d q2 hq
    | other =>
      simp only [doLoadS] at h
      split at h
      · cases h
      · rename_i q2 hq
        simp at h
        rw [← h.2]
        exact ih d q2 hq

/-- C8.  `AdaptedModel.load` does not mutate the input document: the whole
load path — path resolution, coercion, nested-model loading, and the
`post_load` hook (which never receives the document) — only reads, so the
threaded document comes back structurally equal, for every schema
including ones with nested-model fields. -/
theorem c8_load_preserves_document (m : List (String × Attr))
    (post : List (String × Attr) → List (String × Attr)) (d : Value)
    (r : List (String × Attr)) (d2 : Value)
    (h : loadModel m post d = .ok (r, d2)) : d2 = d := by
  simp only [loadModel] at h
  split at h
  · cases h
  · rename_i q hq
    simp at h
    rw [← h.2]
    exact doLoadSPreserve m d q hq

/-- C8, witness: a schema with a nested-model field, loaded over a
two-level document that comes back unchanged. -/
theorem c8_witness :
    loadModel
      [("x", .fld (.nested { path := some "[x]" }
          [("number", .intF { path := some "[y]" })])),
       ("make_request", .other)] id
      (.map [("x", .map [("y", .str "1")])])
      = .ok ([("x", .dv (.inst [("number", .plain (.int 1))])),
              ("make_request", .other)],
             .map [("x", .map [("y", .str "1")])]) ∧
    (.map [("x", .map [("y", .str "1")])] : Value)
      = .map [("x", .map [("y", .str "1")])] := by
  have h : loadModel
      [("x", .fld (.nested { path := some "[x]" }
          [("number", .intF { path := some "[y]" })])),
       ("make_request", .other)] id
      (.map [("x", .map [("y", .str "1")])])
      = .ok ([("x", .dv (.inst [("number", .plain (.int 1))])),
              ("make_request", .other)],
             .map [("x", .map [("y", .str "1")])]) := by
    rfl
  exact ⟨h, c8_load_preserves_document _ id _ _ _ h⟩

/-- After `_do_load` has run, no attribute of the instance is a field
descriptor: every descriptor was overwritten by its deserialized value. -/
theorem doLoadS_noFld (m : List (String × Attr)) (d : Value)
    (q : List (String × Attr) × Value) (h : doLoadS m d = .ok q) :
    noFld q.1 = true := by
  induction m generalizing d q with
  | nil =>
    obtain ⟨q1, qd⟩ := q
    simp [doLoadS] at h
    obtain ⟨h1, h2⟩ := h
    subst h1
    simp [noFld]
  | cons e rest ih =>
    obtain ⟨q1, qd⟩ := q
    obtain ⟨n0, a⟩ := e
    cases a with
    | fld f =>
      simp only [doLoadS] at h
      split at h
      · cases h
      · rename_i p hp
        split at h
        · cases h
        · rename_i q2 hq
          simp at h
          obtain ⟨h1, h2⟩ := h
          subst h1
          have hrest := ih p.2 q2 hq
          simp [noFld, Attr.isFld] at hrest ⊢
          exact hrest
    | dv v =>
      simp only [doLoadS] at h
      split at h
      · cases h
      · rename_i q2 hq
        simp at h
        obtain ⟨h1, h2⟩ := h
        subst h1
        have hrest := ih d q2 hq
        simp [noFld, Attr.isFld] at hrest ⊢
        exact hrest
    | other =>
      simp only [doLoadS] at h
      split at h
      · cases h
      · rename_i q2 hq
        simp at h
        obtain ⟨h1, h2⟩ := h
        subst h1
        have hrest := ih d q2 hq
        simp [noFld, Attr.isFld] at hrest ⊢
        exact hrest

/-- `_do_load` on an instance holding no field descriptors finds nothing
to deserialize and changes nothing. -/
theorem doLoadS_id_of_noFld (m : List (String × Attr)) (d : Value)
    (h : noFld m = true) : doLoadS m d = .ok (m, d) := by
  induction m generalizing d with
  | nil => simp [doLoadS]
  | cons e rest ih =>
    obtain ⟨n0, a⟩ := e
    cases a with
    | fld f => simp [noFld, Attr.isFld] at h
    | dv v =>
      have h2 : noFld rest = true := by
        simp [noFld, Attr.isFld] at h ⊢
        exact h
      simp [doLoadS, ih d h2]
    | other =>
      have h2 : noFld rest = true := by
        simp [noFld, Attr.isFld] at h ⊢
        exact h
      simp [doLoadS, ih d h2]

/-- C9.  A second `load` on the same instance is a no-op apart from
`post_load`: the first load replaced every field descriptor with its
deserialized value, so the second `_do_load` finds no descriptors and
changes no attribute — `load(d2)` after `load(d1)` returns the instance
with only `post_load` applied again, for any hook that does not itself
reinstall descriptors. -/
theorem c9_second_load_noop (m m1 : List (String × Attr))
    (post : List (String × Attr) → List (String × Attr))
    (d1 d2 dx : Value)
    (hpost : ∀ s, noFld s = true → noFld (post s) = true)
    (h1 : loadModel m post d1 = .ok (m1, dx)) :
    loadModel m1 post d2 = .ok (post m1, d2) := by
  simp only [loadModel] at h1
  split at h1
  · cases h1
  · rename_i q hq
    simp at h1
    have hnf : noFld m1 = true := by
      rw [← h1.1]
      exact hpost q.1 (doLoadS_noFld m d1 q hq)
    simp [loadModel, doLoadS_id_of_noFld m1 d2 hnf]

/-- C9, witness: loading `{'x': 2}` after `{'x': 1}` leaves the field at
the first value. -/
theorem c9_witness :
    loadModel [("x", Attr.dv (.plain (.int 1)))] id
      (.map [("x", .int 2)])
      = .ok ([("x", Attr.dv (.plain (.int 1)))], .map [("x", .int 2)]) := by
  have h1 : loadModel [("x", Attr.fld (.pass { path := some "[x]" }))] id
      (.map [("x", .int 1)])
      = .ok ([("x", Attr.dv (.plain (.int 1)))], .map [("x", .int 1)]) := by
    rfl
  exact c9_second_load_noop _ _ id _ (.map [("x", .int 2)]) _
    (fun s h => h) h1

/-- C7, witness: the same scalar leaf `[a]` written twice. -/
theorem c7_witness :
    isScalar (.str "x") = true ∧
    serialize (strField "[a]") (.str "x") (.map [])
      = .ok (.map [("a", .str "x")]) ∧
    (serialize (strField "[a]") (.str "y") (.map [("a", .str "x")])
        = .error .invalidTarget ∨
     serialize (strField "[a]") (.str "y") (.map [("a", .str "x")])
        = .error .positionOccupied ∨
     serialize (strField "[a]") (.str "y") (.map [("a", .str "x")])
        = .error .invalidPosition) :=
  ⟨rfl, rfl, c7_no_silent_overwrite_amended (strField "[a]") (.str "x")
    (.str "y") (.map [("a", .str "x")]) rfl rfl⟩

end RestOrm
